import Mathlib

set_option linter.unnecessarySeqFocus false

/-
Verification development for the Polymarket top-holder analysis scripts
(get_market_ids_json.py and get_top_holders_details_json.py).

The two scripts are embedded shallowly:
  - JSON values (as produced by Python json.loads) are the inductive type Json;
    Python None is Json.null, and both Python int and float are Json.num with a
    PyRat payload (IEEE doubles are modelled as exact rationals; the claims
    under study only involve short decimal literals on which the two agree,
    and no theorem below depends on float rounding artefacts, non-finite
    floats, or the int/float distinction).
  - Browser rendering and HTTP transport are out of scope (spec section 1);
    the rendered page is represented by its parsed __NEXT_DATA__ JSON value,
    and the REST API by an oracle of type String -> Option Json mapping a URL
    to its parsed JSON response (none = network failure, non-2xx status, or a
    JSON decode failure: all of those make call_polymarket_api return None).
  - Python exceptions that the source code does not catch locally are
    modelled with Except String, the message mirroring the raised exception;
    paths on which the source catches every exception return plain values.
-/

/-- Exact rational number with explicit numerator and denominator, used as
the payload of JSON numbers. Unlike Mathlib's Rat it is not kept in lowest
terms, so that every operation is plain integer arithmetic and reduces
inside the kernel; every constructor below keeps the denominator
positive, and Python float equality is value equality (valEq), not
representation equality. -/
structure PyRat where
  num : ℤ
  den : ℤ
deriving Repr, DecidableEq

/-- Embed an integer. -/
def PyRat.ofInt (n : ℤ) : PyRat := ⟨n, 1⟩

instance (n : ℕ) : OfNat PyRat n := ⟨⟨(n : ℤ), 1⟩⟩

/-- Value equality of two rationals (cross multiplication; denominators
are positive by construction). -/
def PyRat.valEq (a b : PyRat) : Bool := a.num * b.den == b.num * a.den

/-- Zero test (Python truthiness of a number). -/
def PyRat.isZero (a : PyRat) : Bool := a.num == 0

/-- Sum of two rationals. -/
def PyRat.add (a b : PyRat) : PyRat := ⟨a.num * b.den + b.num * a.den, a.den * b.den⟩

/-- Product of two rationals. -/
def PyRat.mul (a b : PyRat) : PyRat := ⟨a.num * b.num, a.den * b.den⟩

/-- Negation. -/
def PyRat.neg (a : PyRat) : PyRat := ⟨-a.num, a.den⟩

/-- Multiply by a power of ten. -/
def PyRat.scale10 (a : PyRat) (k : ℕ) : PyRat := ⟨a.num * (10 : ℤ) ^ k, a.den⟩

/-- Divide by a power of ten. -/
def PyRat.unscale10 (a : PyRat) (k : ℕ) : PyRat := ⟨a.num, a.den * (10 : ℤ) ^ k⟩

/-- Round to the nearest integer, ties to even: the rounding of CPython
fixed-point formatting, modelled over exact rationals. The model can
differ from CPython at an exact decimal tie (where the underlying binary
double is never exactly the tie) and at negative values that round to
zero (CPython keeps the minus sign); no theorem below sits at either.
Int.fdiv is floor division, so f is the floor and the comparison of twice
the remainder against the denominator decides the direction. -/
def roundHalfEven (a : PyRat) : ℤ :=
  let f := a.num.fdiv a.den
  let r2 := 2 * (a.num - f * a.den)
  if r2 < a.den then f
  else if a.den < r2 then f + 1
  else if f % 2 = 0 then f else f + 1

/-- JSON values as produced by Python json.loads. Objects keep insertion
order; json.loads always produces string keys and key-unique objects. -/
inductive Json where
  | null : Json
  | bool (b : Bool) : Json
  | num (q : PyRat) : Json
  | str (s : String) : Json
  | arr (xs : List Json) : Json
  | obj (kvs : List (String × Json)) : Json
deriving Repr

/-- First binding of a key in an object body (Python dict lookup; json.loads
objects are key-unique, so first match is the binding). -/
def lookupKV : List (String × Json) → String → Option Json
  | [], _ => none
  | (k, v) :: rest, key => if k = key then some v else lookupKV rest key

/-- Python dict membership test (the expression key in d). -/
def containsKey (kvs : List (String × Json)) (key : String) : Bool :=
  (lookupKV kvs key).isSome

/-- Python truthiness of a json.loads value: None, False, 0, empty string,
empty list and empty dict are falsy, everything else truthy. -/
def truthy : Json → Bool
  | .null => false
  | .bool b => b
  | .num q => !q.isZero
  | .str s => s ≠ ""
  | .arr xs => !xs.isEmpty
  | .obj kvs => !kvs.isEmpty

/-- Python d.get(key, default): some result when the receiver is a dict,
none when the receiver is any other value (AttributeError is raised). -/
def pyGetD (j : Json) (key : String) (default : Json) : Option Json :=
  match j with
  | .obj kvs => some ((lookupKV kvs key).getD default)
  | _ => none

/-- Python numeric value of a bool (bool is a subclass of int: True == 1). -/
def pyNumOfBool (b : Bool) : PyRat := if b then 1 else 0

/-- Python equality (the == operator) on json.loads values, with explicit
recursion fuel: numbers compare by value, bools compare equal to 0 and 1,
lists compare pointwise, dicts compare by equal size plus key lookup
(insertion order is irrelevant; json.loads dicts are key-unique, so equal
size and one-sided containment is dict equality). The fuel bounds the
nesting depth of the first argument: every recursive call strips one
constructor from it, so the bound used by pyEq never runs out. -/
def pyEqFuel : ℕ → Json → Json → Bool
  | 0, _, _ => false
  | fuel + 1, a, b =>
    match a, b with
    | .null, .null => true
    | .bool x, .bool y => x == y
    | .bool x, .num q => (pyNumOfBool x).valEq q
    | .num q, .bool y => q.valEq (pyNumOfBool y)
    | .num x, .num y => x.valEq y
    | .str x, .str y => x == y
    | .arr xs, .arr ys =>
      xs.length == ys.length && (List.zip xs ys).all (fun p => pyEqFuel fuel p.1 p.2)
    | .obj xs, .obj ys =>
      xs.length == ys.length &&
        xs.all (fun kv => ((lookupKV ys kv.1).map (pyEqFuel fuel kv.2)).getD false)
    | _, _ => false

/-- Python equality on json.loads values. The fuel is instantiated at
CPython's default recursion limit: json.loads raises RecursionError well
below nesting depth 1000000, so the fuel covers every value the modelled
scripts can ever hold, and comparisons of differently shaped values never
consume fuel at all. -/
def pyEq (a b : Json) : Bool := pyEqFuel 1000000 a b

/-- Decimal value of a digit character list (most significant first). -/
def digitsToNat (cs : List Char) : ℕ :=
  cs.foldl (fun acc c => 10 * acc + (c.toNat - '0'.toNat)) 0

/-- ASCII whitespace recognized by Python's str.strip and float. Python
also strips some Unicode whitespace; not modelled, and no theorem below
touches it. -/
def isPySpace (c : Char) : Bool :=
  c = ' ' || c = '\t' || c = '\n' || c = '\r' || c = '\x0b' || c = '\x0c'

/-- Python str.strip() with no argument: drop leading and trailing
whitespace. -/
def pyStrip (s : String) : String :=
  String.mk (((s.toList.dropWhile isPySpace).reverse.dropWhile isPySpace).reverse)

/-- Python float(string) on decimal literals: optional surrounding
whitespace, optional sign, digits with an optional fractional part,
optional decimal exponent. CPython additionally accepts inf and nan
spellings and digit-group underscores; those parse to none here (no
theorem below depends on them). The result is the exact rational value of
the literal (doubles are modelled as exact rationals). -/
def parseDecimal (s : String) : Option PyRat :=
  let cs0 := ((s.toList.dropWhile isPySpace).reverse.dropWhile isPySpace).reverse
  let signed : Bool × List Char :=
    match cs0 with
    | '+' :: rest => (false, rest)
    | '-' :: rest => (true, rest)
    | _ => (false, cs0)
  let negate := signed.1
  let cs1 := signed.2
  let intPart := cs1.takeWhile Char.isDigit
  let rest1 := cs1.dropWhile Char.isDigit
  let mantissa : PyRat × Bool × List Char :=
    match rest1 with
    | '.' :: r =>
      let fracPart := r.takeWhile Char.isDigit
      let r2 := r.dropWhile Char.isDigit
      (⟨(digitsToNat intPart : ℤ) * (10 : ℤ) ^ fracPart.length + (digitsToNat fracPart : ℤ),
          (10 : ℤ) ^ fracPart.length⟩,
        !(intPart.isEmpty && fracPart.isEmpty), r2)
    | _ => (PyRat.ofInt (digitsToNat intPart : ℤ), !intPart.isEmpty, rest1)
  let m := if negate then mantissa.1.neg else mantissa.1
  let ok := mantissa.2.1
  let rest2 := mantissa.2.2
  if !ok then none
  else
    match rest2 with
    | [] => some m
    | 'e' :: r =>
      let esigned : Bool × List Char :=
        match r with
        | '+' :: rr => (false, rr)
        | '-' :: rr => (true, rr)
        | _ => (false, r)
      let eDigits := esigned.2.takeWhile Char.isDigit
      let r3 := esigned.2.dropWhile Char.isDigit
      if eDigits.isEmpty || !r3.isEmpty then none
      else some (if esigned.1 then m.unscale10 (digitsToNat eDigits)
                 else m.scale10 (digitsToNat eDigits))
    | 'E' :: r =>
      let esigned : Bool × List Char :=
        match r with
        | '+' :: rr => (false, rr)
        | '-' :: rr => (true, rr)
        | _ => (false, r)
      let eDigits := esigned.2.takeWhile Char.isDigit
      let r3 := esigned.2.dropWhile Char.isDigit
      if eDigits.isEmpty || !r3.isEmpty then none
      else some (if esigned.1 then m.unscale10 (digitsToNat eDigits)
                 else m.scale10 (digitsToNat eDigits))
    | _ => none

/-- Python float(x) applied to a json.loads value: numbers pass through,
bools become 1.0 or 0.0 (bool is a subclass of int), strings are parsed
as decimal literals, and every other type raises (none). -/
def pyFloat : Json → Option PyRat
  | .num q => some q
  | .bool b => some (pyNumOfBool b)
  | .str s => parseDecimal s
  | _ => none

/-- Python x * 100 on a json.loads value (the expression
pos.get('avgPrice', 0) * 100 in the source): numbers multiply, bools
coerce to 0 or 1, strings and lists repeat 100 times, None and dicts
raise TypeError (none). -/
def pyMul100 : Json → Option Json
  | .num q => some (.num (q.mul ⟨100, 1⟩))
  | .bool b => some (.num ((pyNumOfBool b).mul ⟨100, 1⟩))
  | .str s => some (.str (String.join (List.replicate 100 s)))
  | .arr l => some (.arr (List.flatten (List.replicate 100 l)))
  | _ => none

/-- Insert thousands separators into a reversed digit character list
(Python's comma format flag). -/
def groupRev : List Char → List Char
  | a :: b :: c :: d :: rest => a :: b :: c :: ',' :: groupRev (d :: rest)
  | short => short

/-- Render a natural number with Python's thousands grouping. -/
def natGrouped (n : ℕ) : String :=
  String.mk (groupRev (toString n).toList.reverse).reverse

/-- Left-pad the decimal rendering of n to width w with zeros. -/
def padZeros (w : ℕ) (n : ℕ) : String :=
  let s := toString n
  String.mk (List.replicate (w - s.length) '0') ++ s

/-- Python format(x, ",.Df") over exact rationals: round half-even at D
decimal digits, group the integer digits in threes, and for D = 0 omit
the decimal point, as CPython does. -/
def fmtComma (q : PyRat) (d : ℕ) : String :=
  let n := roundHalfEven (q.scale10 d)
  let sign := if n < 0 then "-" else ""
  let m := n.natAbs
  if d = 0 then sign ++ natGrouped m
  else sign ++ natGrouped (m / 10 ^ d) ++ "." ++ padZeros d (m % 10 ^ d)

/-- Python format(x, ".1f") over exact rationals (no grouping). -/
def fmt1f (q : PyRat) : String :=
  let n := roundHalfEven (q.scale10 1)
  let sign := if n < 0 then "-" else ""
  sign ++ toString (n.natAbs / 10) ++ "." ++ toString (n.natAbs % 10)

/-- Python str(x) on json.loads values where the source exercises it in
fallback strings: str of None, bools and strings is exact; numbers render
via the rational payload (the CPython int/float repr distinction is not
preserved); containers get a schematic rendering. Every theorem below
exercises pyStr only on null, bool and string payloads, where the model
is exact. -/
def pyStr : Json → String
  | .null => "None"
  | .bool b => if b then "True" else "False"
  | .num q => if q.den == 1 then toString q.num else toString q.num ++ "/" ++ toString q.den
  | .str s => s
  | .arr _ => "[...]"
  | .obj _ => "\x7b...\x7d"

/-- Python x[0] on a json.loads value: lists index (IndexError when
empty: none), strings yield their first character as a one-character
string, every other receiver raises (a dict subscript with integer key 0
always misses because json.loads keys are strings). -/
def pyIndex0 : Json → Option Json
  | .arr (h :: _) => some h
  | .str s => if s.isEmpty then none else some (.str (String.mk [s.toList.headD ' ']))
  | _ => none

/-- Access chain of get_market_data_from_page (identical in both
scripts): json_data.get("props", ...) through .get("queries", ...), each
with a container default. A non-dict receiver at any level raises
AttributeError, which the enclosing try turns into a None result of
get_market_data_from_page: modelled as none. -/
def stateQueries (jsonData : Json) : Option Json := do
  let props ← pyGetD jsonData "props" (.obj [])
  let pageProps ← pyGetD props "pageProps" (.obj [])
  let ds ← pyGetD pageProps "dehydratedState" (.obj [])
  pyGetD ds "queries" (.arr [])

/-- Query-scanning loop of get_market_data_from_page: find the first
query entry whose queryKey first element equals one of the two recognized
API routes and return its state payload (empty dict default), none when
no entry matches. Taking queryKey[0] on an unindexable value, or .get on
a non-dict query entry, raises: modelled as .error. -/
def scanQueries : List Json → Except String (Option Json)
  | [] => .ok none
  | q :: rest =>
    match q with
    | .obj kvs =>
      let qk := (lookupKV kvs "queryKey").getD (.arr [.str ""])
      match pyIndex0 qk with
      | none => .error "IndexError"
      | some key =>
        if pyEq key (.str "/api/event/slug") || pyEq key (.str "/api/market") then
          .ok (some ((lookupKV kvs "state").getD (.obj [])))
        else scanQueries rest
    | _ => .error "AttributeError"

/-- Shape analysis of the recognized query's data payload in
get_market_data_from_page: a dict payload yields its markets field, and
when that field is falsy (absent, None, empty list, ...) while a
conditionId key is present, the payload itself is wrapped in a
one-element list; a list payload is taken directly; every other payload
leaves markets_data as Python None. -/
def resolveMarketsData (dataContainer : Json) : Json :=
  match dataContainer with
  | .obj dkvs =>
    let md := (lookupKV dkvs "markets").getD .null
    if !truthy md && containsKey dkvs "conditionId" then .arr [.obj dkvs]
    else md
  | .arr l => .arr l
  | _ => .null

/-- Core of get_market_data_from_page (identical in both scripts) as a
function of the parsed __NEXT_DATA__ value. Mirrors the source line by
line: guard that the queries value is a truthy list, scan it, require a
truthy scanned state, analyse its data payload, and finally require the
markets value to be a truthy list. Every exception is caught by the
enclosing try and yields none, as does the final shape check. -/
def getMarketDataFromState (jsonData : Json) : Option (List Json) :=
  match stateQueries jsonData with
  | none => none
  | some queryState =>
    let scanned : Except String (Option Json) :=
      match queryState with
      | .arr qs => if qs.isEmpty then .ok none else scanQueries qs
      | _ => .ok none
    match scanned with
    | .error _ => none
    | .ok stOpt =>
      let marketsData : Except String Json :=
        match stOpt with
        | some st =>
          if truthy st then
            match st with
            | .obj ekvs => .ok (resolveMarketsData ((lookupKV ekvs "data").getD (.obj [])))
            | _ => .error "AttributeError"
          else .ok .null
        | none => .ok .null
      match marketsData with
      | .error _ => none
      | .ok md =>
        if truthy md then
          match md with
          | .arr l => some l
          | _ => none
        else none

/-- Normalized market record appended to market_info_list by
extract_market_info_with_odds in get_market_ids_json.py. The conditionId
is stored as the raw JSON value found in the market entry. -/
structure MarketRecord where
  index : ℕ
  title : String
  conditionId : Json
  yes_odds : String
  no_odds : String
deriving Repr

/-- Odds rendering of one outcome price in extract_market_info_with_odds:
float(price) * 100 formatted at one decimal with a percent sign; a
ValueError or TypeError from float yields the explicit marker
Error(price). -/
def oddsMarker (v : Json) : String :=
  match pyFloat v with
  | some q => fmt1f (q.mul ⟨100, 1⟩) ++ "%"
  | none => "Error(" ++ pyStr v ++ ")"

/-- Title derivation shared by both scripts (the expression
market.get("groupItemTitle") or market.get("question", placeholder)):
the groupItemTitle value when truthy, otherwise the question value when
present, otherwise the synthesized placeholder. -/
def titleValueOf (placeholder : String) (kvs : List (String × Json)) : Json :=
  let groupTitle := (lookupKV kvs "groupItemTitle").getD .null
  if truthy groupTitle then groupTitle
  else (lookupKV kvs "question").getD (.str placeholder)

/-- Odds pair of a market entry in extract_market_info_with_odds: both
prices rendered through oddsMarker when outcomePrices is a list of
length at least two, the marker N/A twice otherwise. -/
def oddsPairOf (kvs : List (String × Json)) : String × String :=
  match (lookupKV kvs "outcomePrices").getD .null with
  | .arr (a :: b :: _) => (oddsMarker a, oddsMarker b)
  | _ => ("N/A", "N/A")

/-- Per-market body of the extraction loop of
extract_market_info_with_odds: read conditionId, derive the title by the
or-fallback from groupItemTitle to question to the synthesized
placeholder, render the two odds (the marker N/A when outcomePrices is
not a list of length at least two), and append the record only when both
conditionId and title are truthy. A non-dict market entry raises at
.get, and a truthy non-string title raises at .strip(): both modelled as
.error, which the enclosing try turns into overall failure. -/
def marketRecordOf (index : ℕ) (market : Json) : Except String (Option MarketRecord) :=
  match market with
  | .obj kvs =>
    let conditionId := (lookupKV kvs "conditionId").getD .null
    let title := titleValueOf ("Market " ++ toString index) kvs
    let odds := oddsPairOf kvs
    if truthy conditionId && truthy title then
      match title with
      | .str s => .ok (some ⟨index, pyStrip s, conditionId, odds.1, odds.2⟩)
      | _ => .error "AttributeError"
    else .ok none
  | _ => .error "AttributeError"

/-- Indexed fold of marketRecordOf over the extracted markets list
(the for-enumerate loop of extract_market_info_with_odds). -/
def buildMarketInfoList (index : ℕ) : List Json → Except String (List MarketRecord)
  | [] => .ok []
  | m :: rest => do
    let headRecord ← marketRecordOf index m
    let tail ← buildMarketInfoList (index + 1) rest
    match headRecord with
    | some r => .ok (r :: tail)
    | none => .ok tail

/-- Post-browser core of extract_market_info_with_odds in
get_market_ids_json.py, as a function of the parsed __NEXT_DATA__ value:
resolve the markets list from the page state, normalize each entry, fail
(None) when the resolution fails, when an exception escapes the loop, or
when no valid record was produced. -/
def extract_market_info_with_odds (pageJson : Json) : Option (List MarketRecord) :=
  match getMarketDataFromState pageJson with
  | none => none
  | some marketsList =>
    match buildMarketInfoList 0 marketsList with
    | .error _ => none
    | .ok records => if records.isEmpty then none else some records

/-- Positions endpoint URL built in get_profile_and_specific_position_data. -/
def positions_url (holderAddress : String) : String :=
  "https://data-api.polymarket.com/positions?user=" ++ holderAddress ++ "&limit=1000"

/-- Volume endpoint URL built in get_profile_and_specific_position_data. -/
def volume_url (holderAddress : String) : String :=
  "https://lb-api.polymarket.com/volume?window=all&limit=1&address=" ++ holderAddress

/-- Profit endpoint URL built in get_profile_and_specific_position_data. -/
def profit_url (holderAddress : String) : String :=
  "https://lb-api.polymarket.com/profit?window=all&limit=1&address=" ++ holderAddress

/-- Result type of call_polymarket_api: the parsed JSON response, or none
on a network error, a non-2xx status, or a JSON decode failure (the
function catches all of those and returns None). An extraction run sees
the API only through such an oracle from URL to response. -/
def ApiOracle : Type := String → Option Json

/-- Body of calculate_positions_value in get_top_holders_details_json.py:
when the argument is a list, sum the currentValue field (default 0.0) of
each entry over those entries whose value passes
isinstance(x, (int, float)); a Python bool passes that test (bool is a
subclass of int) and contributes 1 or 0. A non-dict entry raises
AttributeError at .get, which nothing inside this function catches:
modelled as .error. A non-list argument yields 0.0. -/
def calculate_positions_value (positionsData : Json) : Except String PyRat :=
  match positionsData with
  | .arr entries => sumEntries entries 0
  | _ => .ok 0
where
  sumEntries : List Json → PyRat → Except String PyRat
    | [], acc => .ok acc
    | p :: rest, acc =>
      match p with
      | .obj kvs =>
        match (lookupKV kvs "currentValue").getD (.num 0) with
        | .num q => sumEntries rest (acc.add q)
        | .bool b => sumEntries rest (acc.add (pyNumOfBool b))
        | _ => sumEntries rest acc
      | _ => .error "AttributeError"

/-- Formatted detail dict built for the matching position in
get_profile_and_specific_position_data. -/
structure PositionFmt where
  shares_in_position : String
  avg_price : String
  current_price : String
  position_pnl : String
deriving Repr

/-- Detail formatting of one matching position: each numeric sub-field is
independently converted with float inside a bare try, falling back to
str of the raw value (note the differing fallback defaults of the
source: 0 for size, the string N/A for the other three). The avgPrice
and curPrice values are multiplied by 100 before float, so a string
value is sequence-repeated 100 times first, as in Python. -/
def positionDetailsOf (pos : List (String × Json)) : PositionFmt :=
  let sizeFmt :=
    match pyFloat ((lookupKV pos "size").getD (.num 0)) with
    | some q => fmtComma q 0
    | none => pyStr ((lookupKV pos "size").getD (.num 0))
  let avgFmt :=
    match (pyMul100 ((lookupKV pos "avgPrice").getD (.num 0))).bind pyFloat with
    | some q => fmt1f q ++ "c"
    | none => pyStr ((lookupKV pos "avgPrice").getD (.str "N/A"))
  let curFmt :=
    match (pyMul100 ((lookupKV pos "curPrice").getD (.num 0))).bind pyFloat with
    | some q => fmt1f q ++ "c"
    | none => pyStr ((lookupKV pos "curPrice").getD (.str "N/A"))
  let pnlFmt :=
    match pyFloat ((lookupKV pos "cashPnl").getD (.num 0)) with
    | some q => "$" ++ fmtComma q 2
    | none => pyStr ((lookupKV pos "cashPnl").getD (.str "N/A"))
  ⟨sizeFmt, avgFmt, curFmt, pnlFmt⟩

/-- Target-position scan of get_profile_and_specific_position_data: walk
the positions list in order and return the formatted details of the
first entry whose conditionId and outcomeIndex both compare Python-equal
to the target, stopping at that entry; none when no entry matches. A
non-dict entry reached before a match raises at .get: modelled as
.error. -/
def findTargetPosition (targetConditionId : Json) (targetOutcomeIndex : ℤ) :
    List Json → Except String (Option PositionFmt)
  | [] => .ok none
  | p :: rest =>
    match p with
    | .obj kvs =>
      if pyEq ((lookupKV kvs "conditionId").getD .null) targetConditionId &&
         pyEq ((lookupKV kvs "outcomeIndex").getD .null) (.num (PyRat.ofInt targetOutcomeIndex)) then
        .ok (some (positionDetailsOf kvs))
      else findTargetPosition targetConditionId targetOutcomeIndex rest
    | _ => .error "AttributeError"

/-- Results dict of get_profile_and_specific_position_data. The
targetPosition field models results["Target Market Position"]: none
stands for the initial marker string Not Found, some d for the detail
dict. -/
structure ProfileResults where
  overallVolume : String
  overallPnl : String
  totalPortfolioValue : String
  targetPosition : Option PositionFmt
deriving Repr

/-- Volume and profit stage of get_profile_and_specific_position_data
applied to the parsed response of the respective endpoint: a truthy list
response yields the formatted amount field of its first element (falling
back to an Error marker naming the raw amount when float fails), any
other response leaves the initial Error marker. A non-dict first element
raises at .get outside the try: modelled as .error. -/
def amountStage (response : Option Json) : Except String String :=
  match response with
  | some (.arr (first :: _)) =>
    match first with
    | .obj kvs =>
      let amount := (lookupKV kvs "amount").getD (.num 0)
      match pyFloat amount with
      | some q => .ok ("$" ++ fmtComma q 2)
      | none => .ok ("Error (" ++ pyStr amount ++ ")")
    | _ => .error "AttributeError"
  | _ => .ok "Error"

/-- Positions stage of get_profile_and_specific_position_data applied to
the parsed response of the positions endpoint: a list response (empty
included) yields the formatted total portfolio value and the
target-position scan result; any other response, None included, leaves
both initial markers. -/
def positionsStage (targetConditionId : Json) (targetOutcomeIndex : ℤ)
    (response : Option Json) : Except String (String × Option PositionFmt) :=
  match response with
  | some (.arr entries) => do
    let total ← calculate_positions_value (.arr entries)
    let target ← findTargetPosition targetConditionId targetOutcomeIndex entries
    .ok ("$" ++ fmtComma total 2, target)
  | _ => .ok ("Error", none)

/-- Body of get_profile_and_specific_position_data in
get_top_holders_details_json.py: issue the volume, profit and positions
calls through the oracle and combine the three independent stages. The
target conditionId is passed through as the raw JSON value the caller
extracted from the page (the source annotates it str but never enforces
that). -/
def get_profile_and_specific_position_data (holderAddress : String)
    (targetConditionId : Json) (targetOutcomeIndex : ℤ) (api : ApiOracle) :
    Except String ProfileResults := do
  let volume ← amountStage (api (volume_url holderAddress))
  let pnl ← amountStage (api (profit_url holderAddress))
  let positions ← positionsStage targetConditionId targetOutcomeIndex
    (api (positions_url holderAddress))
  .ok ⟨volume, pnl, positions.1, positions.2⟩

/-- Odds rendering of one outcome price in
process_market_holders_with_focused_stats (note the difference from
get_market_ids_json.py: the bare except here falls back to str of the
raw price value, not to an Error marker). -/
def oddsRaw (v : Json) : String :=
  match pyFloat v with
  | some q => fmt1f (q.mul ⟨100, 1⟩) ++ "%"
  | none => pyStr v

/-- Dict stored as final_output market_info in
process_market_holders_with_focused_stats. The title and conditionId keep
the raw JSON values from the market entry (no strip here, unlike
get_market_ids_json.py). -/
structure MarketInfo where
  title : Json
  index : ℤ
  conditionId : Json
  current_yes_odds : String
  current_no_odds : String
deriving Repr

/-- Odds pair of the chosen market entry in
process_market_holders_with_focused_stats: both prices rendered through
oddsRaw when outcomePrices is a list of length at least two, the marker
N/A twice otherwise. -/
def oddsPairRawOf (kvs : List (String × Json)) : String × String :=
  match (lookupKV kvs "outcomePrices").getD .null with
  | .arr (a :: b :: _) => (oddsRaw a, oddsRaw b)
  | _ => ("N/A", "N/A")

/-- Market-selection block of process_market_holders_with_focused_stats:
bounds-check the requested index against the resolved list (raising the
ValueError message on failure), read conditionId, title and odds of the
chosen entry, and require a truthy conditionId. Errors are the messages
of the exceptions the source raises; they propagate to the top-level
handler, which prints them and returns None. -/
def marketInfoStage (marketIndex : ℤ) (marketsList : List Json) : Except String MarketInfo :=
  if h : 0 ≤ marketIndex ∧ marketIndex < (marketsList.length : ℤ) then
    match marketsList.get ⟨marketIndex.toNat, by omega⟩ with
    | .obj kvs =>
      let conditionId := (lookupKV kvs "conditionId").getD .null
      let title := titleValueOf ("Market " ++ toString marketIndex) kvs
      let odds := oddsPairRawOf kvs
      if truthy conditionId then
        .ok ⟨title, marketIndex, conditionId, odds.1, odds.2⟩
      else .error "Could not determine target conditionId."
    | _ => .error "AttributeError"
  else
    .error ("Invalid market index " ++ toString marketIndex ++ ". Max index: " ++
      toString ((marketsList.length : ℤ) - 1))

/-- Holders endpoint URL built in
process_market_holders_with_focused_stats; the conditionId is
interpolated through str as in the f-string. -/
def holders_url (conditionId : Json) (maxHoldersPerSide : ℕ) : String :=
  "https://data-api.polymarket.com/holders?market=" ++ pyStr conditionId ++
    "&limit=" ++ toString (maxHoldersPerSide * 2 + 10)

/-- Bucket-selection loop of process_market_holders_with_focused_stats:
return the holders list of the first response entry whose holders field
is a truthy list whose first element carries the requested outcomeIndex;
none when no entry matches (that side is silently skipped). A truthy
non-list holders field, a non-dict leading holder, or a non-dict response
entry raises: modelled as .error. -/
def findOutcomeBucket (outcomeIndex : ℤ) : List Json → Except String (Option (List Json))
  | [] => .ok none
  | od :: rest =>
    match od with
    | .obj kvs =>
      match (lookupKV kvs "holders").getD .null with
      | .arr (h :: t) =>
        match h with
        | .obj hkvs =>
          if pyEq ((lookupKV hkvs "outcomeIndex").getD .null)
              (.num (PyRat.ofInt outcomeIndex)) then
            .ok (some (Json.obj hkvs :: t))
          else findOutcomeBucket outcomeIndex rest
        | _ => .error "AttributeError"
      | .arr [] => findOutcomeBucket outcomeIndex rest
      | hl =>
        if truthy hl then .error "TypeError"
        else findOutcomeBucket outcomeIndex rest
    | _ => .error "AttributeError"

/-- Composite per-holder record appended to a side list of final_output
(the source also computes a shares_formatted string from the amount
field, but never stores it in the record, so it is omitted here). The
target_market_position field models the stored Target Market Position
value: none is the Not Found marker. -/
structure HolderRecord where
  rank : ℕ
  name : Json
  address : String
  overall_volume : String
  overall_pnl : String
  total_portfolio_value : String
  target_market_position : Option PositionFmt
deriving Repr

/-- Per-holder loop of process_market_holders_with_focused_stats for one
side: stop once processed_count reaches the cap (checked before each
entry), skip entries whose proxyWallet is falsy without counting them,
and for the rest build the composite record with rank i + 1 from the
enumerate index. The name default slices the address, so a truthy
non-string proxyWallet raises (modelled as .error); the fixed pacing
sleep has no observable effect on the result and is not modelled. -/
def processHolders (targetConditionId : Json) (outcomeIndex : ℤ) (api : ApiOracle)
    (maxHolders : ℕ) : List Json → ℕ → ℕ → Except String (List HolderRecord)
  | [], _, _ => .ok []
  | holder :: rest, i, count =>
    if count ≥ maxHolders then .ok []
    else
      match holder with
      | .obj hkvs =>
        let addr := (lookupKV hkvs "proxyWallet").getD .null
        if truthy addr then
          match addr with
          | .str s => do
            let nm := (lookupKV hkvs "name").getD (.str (String.mk (s.toList.take 10) ++ "..."))
            let profile ← get_profile_and_specific_position_data s targetConditionId
              outcomeIndex api
            let tail ← processHolders targetConditionId outcomeIndex api maxHolders rest
              (i + 1) (count + 1)
            .ok (⟨i + 1, nm, s, profile.overallVolume, profile.overallPnl,
              profile.totalPortfolioValue, profile.targetPosition⟩ :: tail)
          | _ => .error "TypeError"
        else processHolders targetConditionId outcomeIndex api maxHolders rest (i + 1) count
      | _ => .error "AttributeError"

/-- One side of step 3 of process_market_holders_with_focused_stats:
select the bucket for the outcome index and run the per-holder loop; a
missing bucket leaves the side list empty. -/
def processSide (targetConditionId : Json) (outcomeIndex : ℤ) (api : ApiOracle)
    (maxHolders : ℕ) (rawHolderData : List Json) : Except String (List HolderRecord) := do
  match ← findOutcomeBucket outcomeIndex rawHolderData with
  | none => .ok []
  | some bucket => processHolders targetConditionId outcomeIndex api maxHolders bucket 0 0

/-- Value of final_output in process_market_holders_with_focused_stats. -/
structure FinalOutput where
  market_info : MarketInfo
  holders_yes : List HolderRecord
  holders_no : List HolderRecord
deriving Repr

/-- Core of process_market_holders_with_focused_stats in
get_top_holders_details_json.py, as a function of the parsed
__NEXT_DATA__ value, the requested market index, the per-side holder cap
and the API oracle. An .error result models the top-level except handler:
the run prints the exception and returns None, emitting no report at all;
the carried string is the message of the exception that aborted the
run. -/
def process_market_holders_with_focused_stats (pageJson : Json) (marketIndex : ℤ)
    (maxHoldersPerSide : ℕ) (api : ApiOracle) : Except String FinalOutput :=
  match getMarketDataFromState pageJson with
  | none => .error "Failed to extract market list."
  | some marketsList => do
    let info ← marketInfoStage marketIndex marketsList
    let raw ←
      match api (holders_url info.conditionId maxHoldersPerSide) with
      | none => Except.error "Failed to get holder list from API."
      | some (.arr l) => Except.ok l
      | some _ => Except.error "API holder response not a list."
    let yes ← processSide info.conditionId 0 api maxHoldersPerSide raw
    let no ← processSide info.conditionId 1 api maxHoldersPerSide raw
    .ok ⟨info, yes, no⟩

/-- Page state wrapping a single recognized query around the given data
payload: the canonical shape of a __NEXT_DATA__ blob the resolver
understands, used by concrete instantiations below. -/
def mkPageState (payload : Json) : Json :=
  .obj [("props", .obj [("pageProps", .obj [("dehydratedState", .obj [("queries",
    .arr [.obj [("queryKey", .arr [.str "/api/event/slug"]),
                ("state", .obj [("data", payload)])]])])])])]

/-- Dict test on a JSON value. -/
def isObjJson : Json → Bool
  | .obj _ => true
  | _ => false

/-- Usability of the question field for the title fallback: when present
it must be a truthy string (otherwise the derived title is falsy or
unstrippable and the record is skipped or the run aborts). -/
def questionOk (kvs : List (String × Json)) : Bool :=
  match lookupKV kvs "question" with
  | some (.str s) => s ≠ ""
  | some _ => false
  | none => true

/-- Validity of a raw market entry, following the spec data model
(section 3): the entry is an object, its conditionId is a non-empty
string, and the title derivation lands on a truthy string (a truthy
groupItemTitle must be a string; otherwise the question fallback must be
usable). Page states whose market entries satisfy this are the valid
states the resolver claims range over. -/
def validRawMarket : Json → Bool
  | .obj kvs =>
    (match lookupKV kvs "conditionId" with
      | some (.str s) => s ≠ ""
      | _ => false) &&
    (match lookupKV kvs "groupItemTitle" with
      | some g => if truthy g then isStrJson g else questionOk kvs
      | none => questionOk kvs)
  | _ => false
where
  isStrJson : Json → Bool
    | .str _ => true
    | _ => false

/-- Whether the groupItemTitle field is absent or falsy, so the title
falls through to the question field. -/
def groupTitleFalsy (kvs : List (String × Json)) : Bool :=
  match lookupKV kvs "groupItemTitle" with
  | some g => !truthy g
  | none => true

/-- Match predicate of the target-position scan: the entry is a dict
whose conditionId and outcomeIndex compare Python-equal to the target
pair. -/
def isTargetMatch (targetConditionId : Json) (targetOutcomeIndex : ℤ) (p : Json) : Bool :=
  match p with
  | .obj kvs =>
    pyEq ((lookupKV kvs "conditionId").getD .null) targetConditionId &&
    pyEq ((lookupKV kvs "outcomeIndex").getD .null) (.num (PyRat.ofInt targetOutcomeIndex))
  | _ => false

/-- Formatted details of a positions entry (objects only). -/
def detailsOfEntry : Json → Option PositionFmt
  | .obj kvs => some (positionDetailsOf kvs)
  | _ => none

/-- Contribution of one positions entry to the portfolio total: the
currentValue field when it is a number, 1 or 0 when it is a bool (Python
treats bool as int), and 0 for an absent or non-numeric field. -/
def cvContrib : Json → PyRat
  | .obj kvs =>
    match (lookupKV kvs "currentValue").getD (.num 0) with
    | .num q => q
    | .bool b => pyNumOfBool b
    | _ => 0
  | _ => 0

/-- Raw proxyWallet value of a holder entry (null when absent or when the
entry is not a dict). -/
def walletValueOf : Json → Json
  | .obj kvs => (lookupKV kvs "proxyWallet").getD .null
  | _ => .null

/-- Wallet string of a holder entry (empty for the shapes the loop would
skip or abort on). -/
def holderWallet : Json → String
  | .obj kvs =>
    match lookupKV kvs "proxyWallet" with
    | some (.str s) => s
    | _ => ""
  | _ => ""

/-- Holder entry on which the per-holder loop neither skips nor aborts:
a dict whose proxyWallet is a non-empty string. -/
def validHolderEntry : Json → Bool
  | .obj kvs =>
    match lookupKV kvs "proxyWallet" with
    | some (.str s) => s ≠ ""
    | _ => false
  | _ => false

/-- Holder entry shape on which the per-holder loop cannot abort: a dict
whose proxyWallet is either falsy (the entry is skipped) or a string. -/
def walletShapeOk : Json → Bool
  | .obj kvs =>
    match (lookupKV kvs "proxyWallet").getD .null with
    | .str _ => true
    | v => !truthy v
  | _ => false

/-- Rational value of a PyRat (statement-level; division by a zero
denominator never occurs on the values the scripts build). -/
def PyRat.toRat (a : PyRat) : ℚ := (a.num : ℚ) / (a.den : ℚ)

/-- Rational contribution of one positions entry to the portfolio total,
as the amended C5 states it: the numeric value of an int or float
currentValue, 1 or 0 for a bool, and 0 for everything else including an
absent field. -/
def cvContribQ : Json → ℚ
  | .obj kvs =>
    match (lookupKV kvs "currentValue").getD (.num 0) with
    | .num q => q.toRat
    | .bool b => if b then 1 else 0
    | _ => 0
  | _ => 0

/-- Positivity of the denominator of an entry's currentValue payload
(trivially true for non-numeric values; json.loads only ever produces
positive denominators). -/
def cvDenPos : Json → Bool
  | .obj kvs =>
    match (lookupKV kvs "currentValue").getD (.num 0) with
    | .num q => decide (0 < q.den)
    | _ => true
  | _ => true

/-- Concrete API oracle for instantiations: every call fails (None), so
every profile degrades to the four markers and no call aborts. -/
def cApiDown : ApiOracle := fun _ => none

/-- Concrete API oracle for instantiations: the volume call fails while
the profit and positions calls of trader 0xA succeed. -/
def cApiVolumeDown : ApiOracle := fun url =>
  if url = profit_url "0xA" then some (.arr [.obj [("amount", .num ⟨5, 1⟩)]])
  else if url = positions_url "0xA" then some (.arr []) else none

/-- Concrete market entry used by instantiations: the end-to-end example
of the spec (conditionId 0xABC, outcomePrices 0.65 and 0.35). -/
def exMarket : Json :=
  .obj [("conditionId", .str "0xABC"), ("question", .str "Will it?"),
    ("outcomePrices", .arr [.str "0.65", .str "0.35"])]

/-- Concrete holder bucket of n entries for one outcome side, used by
instantiations. -/
def mkHolders (outcomeIndex : ℤ) (n : ℕ) : List Json :=
  (List.range n).map (fun k =>
    .obj [("outcomeIndex", .num (PyRat.ofInt outcomeIndex)),
      ("proxyWallet", .str ("w" ++ toString outcomeIndex ++ "x" ++ toString k))])

theorem findTargetPosition_eq_find? (tcid : Json) (tidx : ℤ) :
    ∀ l : List Json, (∀ p ∈ l, isObjJson p = true) →
      findTargetPosition tcid tidx l = .ok ((l.find? (isTargetMatch tcid tidx)).bind detailsOfEntry)
  | [], _ => rfl
  | p :: rest, hobj => by
    have hp : isObjJson p = true := hobj p (by simp)
    match p, hp with
    | .obj kvs, _ =>
      by_cases hc : (pyEq ((lookupKV kvs "conditionId").getD .null) tcid &&
          pyEq ((lookupKV kvs "outcomeIndex").getD .null)
            (.num (PyRat.ofInt tidx))) = true
      · simp [findTargetPosition, hc, List.find?, isTargetMatch, detailsOfEntry]
      · have ih := findTargetPosition_eq_find? tcid tidx rest
          (fun q hq => hobj q (by simp [hq]))
        simp only [Bool.not_eq_true] at hc
        simp [findTargetPosition, hc, List.find?, isTargetMatch, ih]

/-- C4: for every trader positions list (of position objects) and every
target (conditionId, outcomeIndex), the scan of
get_profile_and_specific_position_data keeps exactly the first position
in list order matching the target on both keys (List.find? semantics: at
most one kept even when several match), and inside the profile the
Target Market Position field is the detail dict of that first match, or
the Not Found marker (none) when no position matches. -/
theorem target_position_first_match :
    (∀ (tcid : Json) (tidx : ℤ) (l : List Json), (∀ p ∈ l, isObjJson p = true) →
      findTargetPosition tcid tidx l =
        .ok ((l.find? (isTargetMatch tcid tidx)).bind detailsOfEntry)) ∧
    (∀ (addr : String) (tcid : Json) (tidx : ℤ) (api : ApiOracle) (l : List Json)
        (res : ProfileResults), (∀ p ∈ l, isObjJson p = true) →
      api (positions_url addr) = some (.arr l) →
      get_profile_and_specific_position_data addr tcid tidx api = .ok res →
      res.targetPosition = (l.find? (isTargetMatch tcid tidx)).bind detailsOfEntry ∧
        (l.find? (isTargetMatch tcid tidx) = none → res.targetPosition = none)) := by
  refine ⟨findTargetPosition_eq_find?, ?_⟩
  intro addr tcid tidx api l res hobj hpos hok
  rw [get_profile_and_specific_position_data, hpos, positionsStage,
    findTargetPosition_eq_find? tcid tidx l hobj] at hok
  cases hv : amountStage (api (volume_url addr)) with
  | error e =>
    rw [hv] at hok; simp only [bind, Except.bind] at hok; exact Except.noConfusion hok
  | ok v =>
    cases hp : amountStage (api (profit_url addr)) with
    | error e =>
      rw [hv, hp] at hok; simp only [bind, Except.bind] at hok; exact Except.noConfusion hok
    | ok p =>
      cases hc : calculate_positions_value (.arr l) with
      | error e =>
        rw [hv, hp, hc] at hok; simp only [bind, Except.bind] at hok
        exact Except.noConfusion hok
      | ok total =>
        rw [hv, hp, hc] at hok
        simp only [bind, Except.bind, Except.ok.injEq] at hok
        subst hok
        exact ⟨rfl, fun hnone => by simp [hnone]⟩

/-- Witness for the C4 theorem at a concrete positions list: the first
matching entry is kept, a later duplicate match is ignored, and a target
with no match yields the absent marker. -/
theorem target_position_first_match_witness :
    findTargetPosition (.str "c") 1
      [.obj [("conditionId", .str "x"), ("outcomeIndex", .num 1)],
       .obj [("conditionId", .str "c"), ("outcomeIndex", .num 1),
         ("size", .num ⟨100, 1⟩), ("avgPrice", .num ⟨65, 100⟩),
         ("curPrice", .num ⟨70, 100⟩), ("cashPnl", .num ⟨5, 1⟩)],
       .obj [("conditionId", .str "c"), ("outcomeIndex", .num 1), ("size", .num ⟨999, 1⟩)]] =
      .ok (some ⟨"100", "65.0c", "70.0c", "$5.00"⟩) ∧
    findTargetPosition (.str "c") 0
      [.obj [("conditionId", .str "x"), ("outcomeIndex", .num 1)],
       .obj [("conditionId", .str "c"), ("outcomeIndex", .num 1),
         ("size", .num ⟨100, 1⟩), ("avgPrice", .num ⟨65, 100⟩),
         ("curPrice", .num ⟨70, 100⟩), ("cashPnl", .num ⟨5, 1⟩)],
       .obj [("conditionId", .str "c"), ("outcomeIndex", .num 1), ("size", .num ⟨999, 1⟩)]] =
      .ok none :=
  ⟨(target_position_first_match.1 (.str "c") 1 _ (by decide)).trans (by rfl),
   (target_position_first_match.1 (.str "c") 0 _ (by decide)).trans (by rfl)⟩

@[simp] theorem PyRat.num_zero : (0 : PyRat).num = 0 := rfl

@[simp] theorem PyRat.den_zero : (0 : PyRat).den = 1 := rfl

@[simp] theorem PyRat.num_one : (1 : PyRat).num = 1 := rfl

@[simp] theorem PyRat.den_one : (1 : PyRat).den = 1 := rfl

theorem PyRat.toRat_add (a b : PyRat) (ha : 0 < a.den) (hb : 0 < b.den) :
    (a.add b).toRat = a.toRat + b.toRat := by
  unfold PyRat.toRat PyRat.add
  have ha' : ((a.den : ℚ)) ≠ 0 := by exact_mod_cast ha.ne'
  have hb' : ((b.den : ℚ)) ≠ 0 := by exact_mod_cast hb.ne'
  rw [div_add_div _ _ ha' hb']
  push_cast
  ring

theorem PyRat.toRat_pyNumOfBool (b : Bool) :
    (pyNumOfBool b).toRat = if b then (1 : ℚ) else 0 := by
  cases b <;> simp [pyNumOfBool, PyRat.toRat]

theorem PyRat.den_pyNumOfBool (b : Bool) : 0 < (pyNumOfBool b).den := by
  cases b <;> decide

theorem sumEntries_toRat : ∀ (l : List Json) (acc : PyRat),
    (∀ p ∈ l, isObjJson p = true) → (∀ p ∈ l, cvDenPos p = true) → 0 < acc.den →
    ∃ t, calculate_positions_value.sumEntries l acc = .ok t ∧ 0 < t.den ∧
      t.toRat = acc.toRat + (l.map cvContribQ).sum
  | [], acc, _, _, hacc => ⟨acc, rfl, hacc, by simp⟩
  | p :: rest, acc, hobj, hden, hacc => by
    have hp := hobj p (by simp)
    have hdp := hden p (by simp)
    have hobj' : ∀ q ∈ rest, isObjJson q = true := fun q hq => hobj q (by simp [hq])
    have hden' : ∀ q ∈ rest, cvDenPos q = true := fun q hq => hden q (by simp [hq])
    match p, hp, hdp with
    | .obj kvs, _, hdp =>
      simp only [cvDenPos] at hdp
      cases hcv : (lookupKV kvs "currentValue").getD (.num 0) with
      | num q =>
        rw [hcv] at hdp
        have hq : 0 < q.den := of_decide_eq_true hdp
        have hpos : 0 < (acc.add q).den := by
          unfold PyRat.add
          positivity
        obtain ⟨t, ht, htd, htr⟩ := sumEntries_toRat rest (acc.add q) hobj' hden' hpos
        refine ⟨t, ?_, htd, ?_⟩
        · simp [calculate_positions_value.sumEntries, hcv, ht]
        · rw [htr, PyRat.toRat_add acc q hacc hq]
          simp [cvContribQ, hcv]
          ring
      | bool b =>
        have hpos : 0 < (acc.add (pyNumOfBool b)).den := by
          unfold PyRat.add
          have := PyRat.den_pyNumOfBool b
          positivity
        obtain ⟨t, ht, htd, htr⟩ := sumEntries_toRat rest (acc.add (pyNumOfBool b)) hobj' hden' hpos
        refine ⟨t, ?_, htd, ?_⟩
        · simp [calculate_positions_value.sumEntries, hcv, ht]
        · rw [htr, PyRat.toRat_add acc (pyNumOfBool b) hacc (PyRat.den_pyNumOfBool b),
            PyRat.toRat_pyNumOfBool]
          simp [cvContribQ, hcv]
          ring
      | null =>
        obtain ⟨t, ht, htd, htr⟩ := sumEntries_toRat rest acc hobj' hden' hacc
        exact ⟨t, by simp [calculate_positions_value.sumEntries, hcv, ht], htd,
          by rw [htr]; simp [cvContribQ, hcv]⟩
      | str s =>
        obtain ⟨t, ht, htd, htr⟩ := sumEntries_toRat rest acc hobj' hden' hacc
        exact ⟨t, by simp [calculate_positions_value.sumEntries, hcv, ht], htd,
          by rw [htr]; simp [cvContribQ, hcv]⟩
      | arr xs =>
        obtain ⟨t, ht, htd, htr⟩ := sumEntries_toRat rest acc hobj' hden' hacc
        exact ⟨t, by simp [calculate_positions_value.sumEntries, hcv, ht], htd,
          by rw [htr]; simp [cvContribQ, hcv]⟩
      | obj okvs =>
        obtain ⟨t, ht, htd, htr⟩ := sumEntries_toRat rest acc hobj' hden' hacc
        exact ⟨t, by simp [calculate_positions_value.sumEntries, hcv, ht], htd,
          by rw [htr]; simp [cvContribQ, hcv]⟩

/-- C5 counterexample: the claim says a position whose current-value
field is non-numeric contributes exactly 0 to the total, for every
positions list. A JSON boolean is not a number, yet
calculate_positions_value adds 1 for currentValue true, because Python's
isinstance(x, (int, float)) accepts bool (a subclass of int): on the
one-position list below the claim predicts total 0, the code returns
total 1. -/
theorem positions_value_bool_counterexample :
    calculate_positions_value (.arr [.obj [("currentValue", .bool true)]]) = .ok 1 ∧
    (1 : PyRat).toRat = 1 ∧ (1 : ℚ) ≠ 0 :=
  ⟨rfl, by simp [PyRat.toRat], by norm_num⟩

/-- C5 amended: for every positions list whose entries are objects (a
non-object entry raises AttributeError instead of being absorbed), the
call returns normally with a total equal to the sum of per-position
contributions, where an int or float currentValue contributes its value,
a bool contributes 1 or 0 (Python's isinstance treats bool as int), and
an absent, None, string, list or dict value contributes 0; no position
is excluded from the aggregate. -/
theorem positions_value_sum :
    (∀ l : List Json, (∀ p ∈ l, isObjJson p = true) → (∀ p ∈ l, cvDenPos p = true) →
      ∃ total, calculate_positions_value (.arr l) = .ok total ∧
        total.toRat = (l.map cvContribQ).sum) ∧
    (∀ kvs s, (lookupKV kvs "currentValue").getD (.num 0) = .str s →
      cvContribQ (.obj kvs) = 0) ∧
    (∀ kvs, lookupKV kvs "currentValue" = none → cvContribQ (.obj kvs) = 0) ∧
    (∀ kvs, (lookupKV kvs "currentValue").getD (.num 0) = .null →
      cvContribQ (.obj kvs) = 0) ∧
    (∀ kvs b, (lookupKV kvs "currentValue").getD (.num 0) = .bool b →
      cvContribQ (.obj kvs) = if b then 1 else 0) ∧
    (∀ kvs q, (lookupKV kvs "currentValue").getD (.num 0) = .num q →
      cvContribQ (.obj kvs) = q.toRat) := by
  refine ⟨?_, ?_, ?_, ?_, ?_, ?_⟩
  · intro l hobj hden
    obtain ⟨t, ht, _, htr⟩ := sumEntries_toRat l 0 hobj hden (by decide)
    refine ⟨t, ?_, ?_⟩
    · simpa [calculate_positions_value] using ht
    · rw [htr]
      have : (0 : PyRat).toRat = 0 := by simp [PyRat.toRat]
      rw [this, zero_add]
  · intro kvs s h; simp [cvContribQ, h]
  · intro kvs h
    have : (lookupKV kvs "currentValue").getD (.num 0) = .num 0 := by simp [h]
    simp [cvContribQ, this, PyRat.toRat]
  · intro kvs h; simp [cvContribQ, h]
  · intro kvs b h; simp [cvContribQ, h]
  · intro kvs q h; simp [cvContribQ, h]

/-- Witness for the amended C5 at a concrete mixed list: one numeric
currentValue of 5 and one string currentValue; the total is 5 and equals
the contribution sum (the string contributes 0). -/
theorem positions_value_sum_witness :
    calculate_positions_value (.arr [.obj [("currentValue", .num ⟨5, 1⟩)],
      .obj [("currentValue", .str "bad")]]) = .ok ⟨5, 1⟩ ∧
    PyRat.toRat ⟨5, 1⟩ =
      ([Json.obj [("currentValue", .num ⟨5, 1⟩)],
        Json.obj [("currentValue", .str "bad")]].map cvContribQ).sum := by
  obtain ⟨t, ht, htr⟩ := positions_value_sum.1
    [.obj [("currentValue", .num ⟨5, 1⟩)], .obj [("currentValue", .str "bad")]]
    (by decide) (by decide)
  have hv : calculate_positions_value (.arr [.obj [("currentValue", .num ⟨5, 1⟩)],
      .obj [("currentValue", .str "bad")]]) = .ok ⟨5, 1⟩ := rfl
  have h2 := hv.symm.trans ht
  injection h2 with h
  subst h
  exact ⟨hv, htr⟩

/-- C6: the profile aggregation sees the API only through the three
endpoint URLs of the given trader address, and each of the three metrics
of a returned profile is computed from its own response alone: the
volume and profit fields are exactly the amount-stage rendering of the
volume and profit responses, the portfolio value and target position are
exactly the positions-stage rendering of the positions response, and a
failed call (None response) for one endpoint leaves that metric's
Error or Not Found marker while the other metrics still carry the
renderings of their own responses. -/
theorem profile_metrics_independent (addr : String) (tcid : Json) (tidx : ℤ)
    (api : ApiOracle) (res : ProfileResults)
    (hok : get_profile_and_specific_position_data addr tcid tidx api = .ok res) :
    amountStage (api (volume_url addr)) = .ok res.overallVolume ∧
    amountStage (api (profit_url addr)) = .ok res.overallPnl ∧
    positionsStage tcid tidx (api (positions_url addr)) =
      .ok (res.totalPortfolioValue, res.targetPosition) ∧
    (api (volume_url addr) = none → res.overallVolume = "Error") ∧
    (api (profit_url addr) = none → res.overallPnl = "Error") ∧
    (api (positions_url addr) = none →
      res.totalPortfolioValue = "Error" ∧ res.targetPosition = none) := by
  rw [get_profile_and_specific_position_data] at hok
  cases hv : amountStage (api (volume_url addr)) with
  | error e =>
    rw [hv] at hok; simp only [bind, Except.bind] at hok; exact Except.noConfusion hok
  | ok v =>
    cases hp : amountStage (api (profit_url addr)) with
    | error e =>
      rw [hv, hp] at hok; simp only [bind, Except.bind] at hok; exact Except.noConfusion hok
    | ok p =>
      cases hps : positionsStage tcid tidx (api (positions_url addr)) with
      | error e =>
        rw [hv, hp, hps] at hok; simp only [bind, Except.bind] at hok
        exact Except.noConfusion hok
      | ok ps =>
        rw [hv, hp, hps] at hok
        simp only [bind, Except.bind, Except.ok.injEq] at hok
        subst hok
        refine ⟨rfl, rfl, rfl, ?_, ?_, ?_⟩
        · intro hnone
          rw [hnone] at hv
          have h0 : amountStage none = .ok "Error" := rfl
          rw [h0] at hv
          injection hv with h
          exact h.symm
        · intro hnone
          rw [hnone] at hp
          have h0 : amountStage none = .ok "Error" := rfl
          rw [h0] at hp
          injection hp with h
          exact h.symm
        · intro hnone
          rw [hnone] at hps
          have h0 : positionsStage tcid tidx none = .ok ("Error", none) := rfl
          rw [h0] at hps
          injection hps with h
          exact ⟨congrArg Prod.fst h.symm, congrArg Prod.snd h.symm⟩

/-- Witness for C6 at a concrete oracle whose volume call fails while the
profit and positions calls succeed: the volume metric degrades to the
Error marker and the other two metrics are populated from their own
responses. -/
theorem profile_metrics_independent_witness :
    amountStage (cApiVolumeDown (volume_url "0xA")) = .ok "Error" ∧
    amountStage (cApiVolumeDown (profit_url "0xA")) = .ok "$5.00" ∧
    positionsStage (.str "c") 0 (cApiVolumeDown (positions_url "0xA")) =
      .ok ("$0.00", none) := by
  have h := profile_metrics_independent "0xA" (.str "c") 0 cApiVolumeDown
    ⟨"Error", "$5.00", "$0.00", none⟩ rfl
  exact ⟨h.1, h.2.1, h.2.2.1⟩

theorem market_placeholder_ne_empty (s : String) : ("Market " ++ s) ≠ "" := by
  intro h
  have hl := congrArg String.length h
  rw [String.length_append] at hl
  have h7 : ("Market " : String).length = 7 := rfl
  have h0 : ("" : String).length = 0 := rfl
  omega

theorem valid_conditionId (kvs : List (String × Json))
    (hv : validRawMarket (.obj kvs) = true) :
    ∃ s, lookupKV kvs "conditionId" = some (.str s) ∧ s ≠ "" := by
  simp only [validRawMarket, Bool.and_eq_true] at hv
  obtain ⟨h1, _⟩ := hv
  split at h1
  · next s heq => exact ⟨s, heq, by simpa using h1⟩
  · simp at h1

theorem questionOk_title (kvs : List (String × Json)) (ph : String) (hph : ph ≠ "")
    (h2 : questionOk kvs = true) :
    ∃ ts, (lookupKV kvs "question").getD (.str ph) = .str ts ∧ ts ≠ "" := by
  rw [questionOk] at h2
  cases heq2 : lookupKV kvs "question" with
  | some q =>
    simp only [heq2] at h2
    cases q with
    | str qs => exact ⟨qs, by simp, by simpa using h2⟩
    | null => simp at h2
    | bool b => simp at h2
    | num n => simp at h2
    | arr xs => simp at h2
    | obj okvs => simp at h2
  | none => exact ⟨ph, by simp, hph⟩

theorem titleValueOf_valid (kvs : List (String × Json)) (ph : String) (hph : ph ≠ "")
    (hv : validRawMarket (.obj kvs) = true) :
    ∃ ts, titleValueOf ph kvs = .str ts ∧ ts ≠ "" := by
  simp only [validRawMarket, Bool.and_eq_true] at hv
  obtain ⟨-, h2⟩ := hv
  simp only [titleValueOf]
  cases heq : lookupKV kvs "groupItemTitle" with
  | some g =>
    simp only [heq] at h2
    simp only [heq, Option.getD_some]
    cases htr : truthy g with
    | true =>
      rw [htr] at h2
      simp only [if_true] at h2
      rw [if_pos rfl]
      cases g with
      | str gs => exact ⟨gs, rfl, by simpa [truthy] using htr⟩
      | null => simp [validRawMarket.isStrJson] at h2
      | bool b => simp [validRawMarket.isStrJson] at h2
      | num n => simp [validRawMarket.isStrJson] at h2
      | arr xs => simp [validRawMarket.isStrJson] at h2
      | obj okvs => simp [validRawMarket.isStrJson] at h2
    | false =>
      rw [htr] at h2
      simp only [Bool.false_eq_true, if_false] at h2
      rw [if_neg (by simp)]
      exact questionOk_title kvs ph hph h2
  | none =>
    simp only [heq] at h2
    simp only [heq, Option.getD_none]
    have hnull : truthy Json.null = false := rfl
    rw [if_neg (by simp [hnull])]
    exact questionOk_title kvs ph hph h2

theorem marketRecordOf_valid (i : ℕ) (kvs : List (String × Json))
    (hv : validRawMarket (.obj kvs) = true) :
    ∃ s ts, lookupKV kvs "conditionId" = some (.str s) ∧ s ≠ "" ∧
      titleValueOf ("Market " ++ toString i) kvs = .str ts ∧
      marketRecordOf i (.obj kvs) =
        .ok (some ⟨i, pyStrip ts, .str s, (oddsPairOf kvs).1, (oddsPairOf kvs).2⟩) := by
  obtain ⟨s, hs, hsne⟩ := valid_conditionId kvs hv
  obtain ⟨ts, hts, htsne⟩ := titleValueOf_valid kvs ("Market " ++ toString i)
    (market_placeholder_ne_empty _) hv
  refine ⟨s, ts, hs, hsne, hts, ?_⟩
  simp only [marketRecordOf, hs, hts, Option.getD_some]
  have h1 : truthy (Json.str s) = true := by simpa [truthy] using hsne
  have h2 : truthy (Json.str ts) = true := by simpa [truthy] using htsne
  rw [h1, h2]
  simp

theorem buildMarketInfoList_valid : ∀ (ms : List Json) (i : ℕ),
    (∀ m ∈ ms, validRawMarket m = true) →
    ∃ rs, buildMarketInfoList i ms = .ok rs ∧ rs.length = ms.length ∧
      ∀ r ∈ rs, ∃ s, r.conditionId = Json.str s ∧ s ≠ ""
  | [], _, _ => ⟨[], rfl, rfl, by simp⟩
  | m :: rest, i, hv => by
    have hm := hv m (by simp)
    match m, hm with
    | .obj kvs, hm =>
      obtain ⟨s, ts, _, hsne, _, hrec⟩ := marketRecordOf_valid i kvs hm
      obtain ⟨rs, hrs, hlen, hall⟩ := buildMarketInfoList_valid rest (i + 1)
        (fun q hq => hv q (by simp [hq]))
      refine ⟨⟨i, pyStrip ts, .str s, (oddsPairOf kvs).1, (oddsPairOf kvs).2⟩ :: rs, ?_, ?_, ?_⟩
      · simp only [buildMarketInfoList, hrec, hrs, bind, Except.bind]
      · simpa using hlen
      · intro r hr
        rcases List.mem_cons.mp hr with h | h
        · exact ⟨s, by rw [h], hsne⟩
        · exact hall r h

theorem getMarketDataFromState_markets (pageJson : Json) (qs : List Json)
    (ekvs dkvs : List (String × Json)) (ms : List Json)
    (hq : stateQueries pageJson = some (.arr qs))
    (hscan : scanQueries qs = .ok (some (.obj ekvs)))
    (hst : truthy (Json.obj ekvs) = true)
    (hdata : (lookupKV ekvs "data").getD (.obj []) = .obj dkvs)
    (hmk : lookupKV dkvs "markets" = some (.arr ms))
    (hne : ms ≠ []) :
    getMarketDataFromState pageJson = some ms := by
  have hmsne : ms.isEmpty = false := by
    cases ms with
    | nil => exact absurd rfl hne
    | cons a as => rfl
  rw [getMarketDataFromState, hq]
  cases qs with
  | nil =>
    rw [scanQueries] at hscan
    exact Option.noConfusion (Except.ok.inj hscan)
  | cons q rest =>
    have hne' : (q :: rest).isEmpty = false := rfl
    simp only [hne', Bool.false_eq_true, if_false, hscan, hst, if_true, hdata,
      resolveMarketsData, hmk, Option.getD_some]
    have hcond : (!truthy (Json.arr ms) && containsKey dkvs "conditionId") = false := by
      simp [truthy, hmsne]
    rw [hcond]
    simp [truthy, hmsne]

/-- C1: for every valid parsed page state whose first recognized query
carries a markets list of length N (each entry valid per the data model:
an object with a non-empty string conditionId and a usable title
source), extract_market_info_with_odds succeeds and returns exactly N
normalized records, each with a populated (non-empty string)
conditionId. -/
theorem market_resolution_count (pageJson : Json) (qs : List Json)
    (ekvs dkvs : List (String × Json)) (ms : List Json)
    (hq : stateQueries pageJson = some (.arr qs))
    (hscan : scanQueries qs = .ok (some (.obj ekvs)))
    (hst : truthy (Json.obj ekvs) = true)
    (hdata : (lookupKV ekvs "data").getD (.obj []) = .obj dkvs)
    (hmk : lookupKV dkvs "markets" = some (.arr ms))
    (hne : ms ≠ [])
    (hv : ∀ m ∈ ms, validRawMarket m = true) :
    ∃ rs, extract_market_info_with_odds pageJson = some rs ∧ rs.length = ms.length ∧
      ∀ r ∈ rs, ∃ s, r.conditionId = Json.str s ∧ s ≠ "" := by
  obtain ⟨rs, hrs, hlen, hall⟩ := buildMarketInfoList_valid ms 0 hv
  refine ⟨rs, ?_, hlen, hall⟩
  rw [extract_market_info_with_odds,
    getMarketDataFromState_markets pageJson qs ekvs dkvs ms hq hscan hst hdata hmk hne]
  have hrsne : rs.isEmpty = false := by
    cases rs with
    | nil =>
      rw [List.length_nil] at hlen
      cases ms with
      | nil => exact absurd rfl hne
      | cons a as => simp at hlen
    | cons a as => rfl
  simp [hrs, hrsne]

/-- Witness for C1 at a concrete two-market page state: both markets
resolve, in order, each with its conditionId populated. -/
theorem market_resolution_count_witness :
    extract_market_info_with_odds (mkPageState (.obj [("markets", .arr [exMarket,
        .obj [("conditionId", .str "0xDEF"), ("groupItemTitle", .str "Second")]])])) =
      some [⟨0, "Will it?", .str "0xABC", "65.0%", "35.0%"⟩,
            ⟨1, "Second", .str "0xDEF", "N/A", "N/A"⟩] ∧
    ([⟨0, "Will it?", .str "0xABC", "65.0%", "35.0%"⟩,
      ⟨1, "Second", .str "0xDEF", "N/A", "N/A"⟩] : List MarketRecord).length = 2 := by
  obtain ⟨rs, hrs, hlen, hall⟩ := market_resolution_count
    (mkPageState (.obj [("markets", .arr [exMarket,
      .obj [("conditionId", .str "0xDEF"), ("groupItemTitle", .str "Second")]])]))
    [.obj [("queryKey", .arr [.str "/api/event/slug"]),
      ("state", .obj [("data", .obj [("markets", .arr [exMarket,
        .obj [("conditionId", .str "0xDEF"), ("groupItemTitle", .str "Second")]])])])]]
    [("data", .obj [("markets", .arr [exMarket,
      .obj [("conditionId", .str "0xDEF"), ("groupItemTitle", .str "Second")]])])]
    [("markets", .arr [exMarket,
      .obj [("conditionId", .str "0xDEF"), ("groupItemTitle", .str "Second")]])]
    [exMarket, .obj [("conditionId", .str "0xDEF"), ("groupItemTitle", .str "Second")]]
    rfl rfl rfl rfl rfl (by exact List.cons_ne_nil _ _) (by decide)
  have hL : extract_market_info_with_odds (mkPageState (.obj [("markets", .arr [exMarket,
      .obj [("conditionId", .str "0xDEF"), ("groupItemTitle", .str "Second")]])])) =
      some [⟨0, "Will it?", .str "0xABC", "65.0%", "35.0%"⟩,
            ⟨1, "Second", .str "0xDEF", "N/A", "N/A"⟩] := rfl
  have hre : rs = [⟨0, "Will it?", .str "0xABC", "65.0%", "35.0%"⟩,
      ⟨1, "Second", .str "0xDEF", "N/A", "N/A"⟩] :=
    Option.some.inj (hrs.symm.trans hL)
  exact ⟨hL, by rw [← hre, hlen]; rfl⟩

/-- C3 counterexample: the claim's case analysis says that when the
payload is a mapping containing a markets field, that field's value is
used, so on the payload below (markets present with value [],
conditionId present) resolution would fail, the empty list not being a
non-empty list. The code instead wraps the payload as a one-element
list, because the wrap branch triggers whenever the markets value is
falsy (absent, None, empty, ...), not only when the field is absent:
resolution succeeds and returns the payload itself. -/
theorem payload_case_counterexample :
    lookupKV [("markets", Json.arr []), ("conditionId", Json.str "c")] "markets" =
      some (.arr []) ∧
    getMarketDataFromState (mkPageState (.obj [("markets", .arr []),
        ("conditionId", .str "c")])) =
      some [.obj [("markets", .arr []), ("conditionId", .str "c")]] :=
  ⟨rfl, rfl⟩

/-- C3 amended: given the data payload of the first recognized query
entry, the resolver's case analysis is: for a mapping payload whose
markets value is truthy, that value is used; for a mapping payload whose
markets value is falsy or absent, the payload is wrapped as a
one-element list when a conditionId key is present, and otherwise the
falsy markets value stands; a list payload is used directly; any other
payload yields Python None; and resolution succeeds exactly when the
resulting value is a non-empty list, failing otherwise. -/
theorem payload_case_analysis :
    (∀ dkvs v, lookupKV dkvs "markets" = some v → truthy v = true →
      resolveMarketsData (.obj dkvs) = v) ∧
    (∀ dkvs, truthy ((lookupKV dkvs "markets").getD .null) = false →
      containsKey dkvs "conditionId" = true →
      resolveMarketsData (.obj dkvs) = .arr [.obj dkvs]) ∧
    (∀ dkvs, truthy ((lookupKV dkvs "markets").getD .null) = false →
      containsKey dkvs "conditionId" = false →
      resolveMarketsData (.obj dkvs) = (lookupKV dkvs "markets").getD .null) ∧
    (∀ l, resolveMarketsData (.arr l) = .arr l) ∧
    (resolveMarketsData .null = .null ∧ (∀ b, resolveMarketsData (.bool b) = .null) ∧
      (∀ q, resolveMarketsData (.num q) = .null) ∧
      (∀ s, resolveMarketsData (.str s) = .null)) ∧
    (∀ (pageJson : Json) (qs : List Json) (ekvs : List (String × Json)),
      stateQueries pageJson = some (.arr qs) →
      scanQueries qs = .ok (some (.obj ekvs)) →
      truthy (Json.obj ekvs) = true →
      getMarketDataFromState pageJson =
        (match resolveMarketsData ((lookupKV ekvs "data").getD (.obj [])) with
         | .arr (x :: xs) => some (x :: xs)
         | _ => none)) := by
  refine ⟨?_, ?_, ?_, fun l => rfl, ⟨rfl, fun b => rfl, fun q => rfl, fun s => rfl⟩, ?_⟩
  · intro dkvs v hmk htr
    simp [resolveMarketsData, hmk, htr]
  · intro dkvs htr hck
    simp [resolveMarketsData, htr, hck]
  · intro dkvs htr hck
    simp [resolveMarketsData, htr, hck]
  · intro pageJson qs ekvs hq hscan hst
    rw [getMarketDataFromState, hq]
    cases qs with
    | nil =>
      rw [scanQueries] at hscan
      exact Option.noConfusion (Except.ok.inj hscan)
    | cons q rest =>
      have hne' : (q :: rest).isEmpty = false := rfl
      simp only [hne', Bool.false_eq_true, if_false, hscan, hst, if_true]
      generalize resolveMarketsData ((lookupKV ekvs "data").getD (.obj [])) = md
      cases md with
      | null => rfl
      | bool b => cases b <;> rfl
      | num n => by_cases hz : n.isZero = true <;> simp [truthy, hz]
      | str s => by_cases hz : s = "" <;> simp [truthy, hz]
      | arr l =>
        cases l with
        | nil => rfl
        | cons x xs => simp [truthy]
      | obj okvs => simp [truthy]

/-- Witness for the amended C3 at concrete payloads: a truthy markets
field is used as-is, a conditionId mapping without markets is wrapped,
and a list payload resolves directly through the whole resolver. -/
theorem payload_case_analysis_witness :
    resolveMarketsData (.obj [("markets", .arr [exMarket])]) = .arr [exMarket] ∧
    resolveMarketsData (.obj [("conditionId", .str "c")]) =
      .arr [.obj [("conditionId", .str "c")]] ∧
    getMarketDataFromState (mkPageState (.arr [exMarket])) = some [exMarket] := by
  refine ⟨payload_case_analysis.1 _ _ rfl rfl, payload_case_analysis.2.1 _ rfl rfl, ?_⟩
  have h := payload_case_analysis.2.2.2.2.2 (mkPageState (.arr [exMarket]))
    [.obj [("queryKey", .arr [.str "/api/event/slug"]),
      ("state", .obj [("data", .arr [exMarket])])]]
    [("data", .arr [exMarket])] rfl rfl rfl
  exact h.trans rfl

theorem titleValueOf_of_groupFalsy (kvs : List (String × Json)) (ph : String)
    (h : groupTitleFalsy kvs = true) :
    titleValueOf ph kvs = (lookupKV kvs "question").getD (.str ph) := by
  rw [titleValueOf, groupTitleFalsy] at *
  cases heq : lookupKV kvs "groupItemTitle" with
  | none =>
    simp only [heq, Option.getD_none]
    exact if_neg (by simp [truthy])
  | some g =>
    simp only [heq] at h
    simp only [heq, Option.getD_some]
    exact if_neg (by simp [Bool.not_eq_true] at h; simp [h])

/-- C9 counterexample: the claim says the normalized title is the
group-level title field when present. On the entry below groupItemTitle
is present (with the empty string as value), yet the code stores the
question value Q, because the fallback is driven by truthiness, not
presence. -/
theorem title_presence_counterexample :
    lookupKV [("conditionId", Json.str "c"), ("groupItemTitle", Json.str ""),
      ("question", Json.str "Q")] "groupItemTitle" = some (.str "") ∧
    marketRecordOf 0 (.obj [("conditionId", .str "c"), ("groupItemTitle", .str ""),
      ("question", .str "Q")]) = .ok (some ⟨0, "Q", .str "c", "N/A", "N/A"⟩) ∧
    "Q" ≠ "" :=
  ⟨rfl, rfl, by decide⟩

/-- C9 amended: for a valid raw market entry the stored title is the
whitespace-stripped groupItemTitle when that field's value is truthy,
otherwise the whitespace-stripped question value when the question field
is present, otherwise the stripped synthesized placeholder; an entry
whose derived title is falsy (question present but empty, groupItemTitle
falsy) is skipped rather than emitted; and an emitted title can still be
the empty string, when the truthy title was all whitespace. -/
theorem title_fallback :
    (∀ (i : ℕ) (kvs : List (String × Json)) (g : String),
      validRawMarket (.obj kvs) = true →
      lookupKV kvs "groupItemTitle" = some (.str g) → g ≠ "" →
      ∃ r, marketRecordOf i (.obj kvs) = .ok (some r) ∧ r.title = pyStrip g) ∧
    (∀ (i : ℕ) (kvs : List (String × Json)) (q : String),
      validRawMarket (.obj kvs) = true → groupTitleFalsy kvs = true →
      lookupKV kvs "question" = some (.str q) →
      ∃ r, marketRecordOf i (.obj kvs) = .ok (some r) ∧ r.title = pyStrip q) ∧
    (∀ (i : ℕ) (kvs : List (String × Json)),
      validRawMarket (.obj kvs) = true → groupTitleFalsy kvs = true →
      lookupKV kvs "question" = none →
      ∃ r, marketRecordOf i (.obj kvs) = .ok (some r) ∧
        r.title = pyStrip ("Market " ++ toString i)) ∧
    (∀ (i : ℕ) (kvs : List (String × Json)) (s : String),
      lookupKV kvs "conditionId" = some (.str s) → s ≠ "" →
      groupTitleFalsy kvs = true → lookupKV kvs "question" = some (.str "") →
      marketRecordOf i (.obj kvs) = .ok none) ∧
    marketRecordOf 0 (.obj [("conditionId", .str "c"), ("groupItemTitle", .str "  ")]) =
      .ok (some ⟨0, "", .str "c", "N/A", "N/A"⟩) := by
  refine ⟨?_, ?_, ?_, ?_, rfl⟩
  · intro i kvs g hv hg hgne
    obtain ⟨s, ts, hs, hsne, hts, hrec⟩ := marketRecordOf_valid i kvs hv
    have htg : titleValueOf ("Market " ++ toString i) kvs = .str g := by
      simp [titleValueOf, hg, truthy, hgne]
    have : ts = g := Json.str.inj (hts.symm.trans htg)
    exact ⟨_, hrec, by rw [this]⟩
  · intro i kvs q hv hgf hq
    obtain ⟨s, ts, hs, hsne, hts, hrec⟩ := marketRecordOf_valid i kvs hv
    have htg : titleValueOf ("Market " ++ toString i) kvs = .str q := by
      rw [titleValueOf_of_groupFalsy kvs _ hgf, hq, Option.getD_some]
    have : ts = q := Json.str.inj (hts.symm.trans htg)
    exact ⟨_, hrec, by rw [this]⟩
  · intro i kvs hv hgf hq
    obtain ⟨s, ts, hs, hsne, hts, hrec⟩ := marketRecordOf_valid i kvs hv
    have htg : titleValueOf ("Market " ++ toString i) kvs =
        .str ("Market " ++ toString i) := by
      rw [titleValueOf_of_groupFalsy kvs _ hgf, hq, Option.getD_none]
    have : ts = "Market " ++ toString i := Json.str.inj (hts.symm.trans htg)
    exact ⟨_, hrec, by rw [this]⟩
  · intro i kvs s hs hsne hgf hq
    have htg : titleValueOf ("Market " ++ toString i) kvs = .str "" := by
      rw [titleValueOf_of_groupFalsy kvs _ hgf, hq, Option.getD_some]
    simp only [marketRecordOf, hs, htg, Option.getD_some]
    have h2 : truthy (Json.str "") = false := by simp [truthy]
    rw [h2]
    simp

/-- Witness for the amended C9 at concrete entries: a question-only entry
with empty question is skipped, a bare entry falls back to the stripped
placeholder, and a whitespace groupItemTitle yields an empty stored
title. -/
theorem title_fallback_witness :
    marketRecordOf 0 (.obj [("conditionId", .str "c"), ("question", .str "")]) = .ok none ∧
    marketRecordOf 2 (.obj [("conditionId", .str "c")]) =
      .ok (some ⟨2, "Market 2", .str "c", "N/A", "N/A"⟩) := by
  refine ⟨title_fallback.2.2.2.1 0 [("conditionId", .str "c"), ("question", .str "")]
    "c" rfl (by decide) rfl rfl, ?_⟩
  obtain ⟨r, hr, ht⟩ := title_fallback.2.2.1 2 [("conditionId", .str "c")]
    (by decide) rfl rfl
  have hL : marketRecordOf 2 (.obj [("conditionId", .str "c")]) =
      .ok (some ⟨2, "Market 2", .str "c", "N/A", "N/A"⟩) := rfl
  exact hL

/-- C2 counterexample: the claim says a non-numeric price yields an
explicit error-marker string for that field. In
process_market_holders_with_focused_stats (the market summary of the
holder report, source lines 167-172) the bare except falls back to
str(price): for the price "abc" the stored odds field is the raw string
abc itself, which is neither the Error(...) marker of the market-listing
script nor the N/A marker, and is indistinguishable from a legitimate
value. Extraction still completes, and the sibling price renders
normally. -/
theorem odds_marker_counterexample :
    marketInfoStage 0 [.obj [("conditionId", .str "c"), ("question", .str "T"),
      ("outcomePrices", .arr [.str "abc", .str "0.35"])]] =
      .ok ⟨.str "T", 0, .str "c", "abc", "35.0%"⟩ ∧
    "abc" ≠ "Error(abc)" ∧ "abc" ≠ "N/A" :=
  ⟨rfl, by decide, by decide⟩

/-- C2 amended: every outcome price is parsed with float and rendered as
a one-decimal percentage string; a missing price pair leaves both odds
as the N/A marker in both scripts; a non-numeric price yields the
explicit marker Error(price) in the market-listing script but the raw
value rendered through str in the holder-report script; extraction of
the market record still completes for every valid market entry whatever
the prices are; and on the end-to-end example (conditionId 0xABC, prices
0.65 and 0.35) both scripts report 65.0 percent and 35.0 percent. -/
theorem odds_rendering :
    (∀ (v : Json) (q : PyRat), pyFloat v = some q →
      oddsMarker v = fmt1f (q.mul ⟨100, 1⟩) ++ "%" ∧
      oddsRaw v = fmt1f (q.mul ⟨100, 1⟩) ++ "%") ∧
    (∀ v : Json, pyFloat v = none → oddsMarker v = "Error(" ++ pyStr v ++ ")") ∧
    (∀ v : Json, pyFloat v = none → oddsRaw v = pyStr v) ∧
    (∀ kvs : List (String × Json), lookupKV kvs "outcomePrices" = none →
      oddsPairOf kvs = ("N/A", "N/A") ∧ oddsPairRawOf kvs = ("N/A", "N/A")) ∧
    (∀ (kvs : List (String × Json)) (a b : Json) (rest : List Json),
      (lookupKV kvs "outcomePrices").getD .null = .arr (a :: b :: rest) →
      oddsPairOf kvs = (oddsMarker a, oddsMarker b) ∧
      oddsPairRawOf kvs = (oddsRaw a, oddsRaw b)) ∧
    (∀ (i : ℕ) (kvs : List (String × Json)), validRawMarket (.obj kvs) = true →
      ∃ r, marketRecordOf i (.obj kvs) = .ok (some r) ∧
        r.yes_odds = (oddsPairOf kvs).1 ∧ r.no_odds = (oddsPairOf kvs).2) ∧
    (extract_market_info_with_odds (mkPageState (.obj [("markets", .arr [exMarket])])) =
      some [⟨0, "Will it?", .str "0xABC", "65.0%", "35.0%"⟩] ∧
     marketInfoStage 0 [exMarket] =
      .ok ⟨.str "Will it?", 0, .str "0xABC", "65.0%", "35.0%"⟩) := by
  refine ⟨?_, ?_, ?_, ?_, ?_, ?_, rfl, rfl⟩
  · intro v q h; exact ⟨by simp [oddsMarker, h], by simp [oddsRaw, h]⟩
  · intro v h; simp [oddsMarker, h]
  · intro v h; simp [oddsRaw, h]
  · intro kvs h
    constructor
    · rw [oddsPairOf, h]; rfl
    · rw [oddsPairRawOf, h]; rfl
  · intro kvs a b rest h
    constructor
    · rw [oddsPairOf, h]
    · rw [oddsPairRawOf, h]
  · intro i kvs hv
    obtain ⟨s, ts, hs, hsne, hts, hrec⟩ := marketRecordOf_valid i kvs hv
    exact ⟨_, hrec, rfl, rfl⟩

/-- Witness for the amended C2 at concrete prices: 0.65 renders to the
one-decimal percentage 65.0 percent, a non-numeric price renders to the
Error marker in the listing script and to the raw string in the holder
script. -/
theorem odds_rendering_witness :
    oddsMarker (.str "0.65") = "65.0%" ∧
    oddsMarker (.str "oops") = "Error(oops)" ∧
    oddsRaw (.str "oops") = "oops" :=
  ⟨((odds_rendering.1 (.str "0.65") ⟨65, 100⟩ rfl).1).trans (by rfl),
   (odds_rendering.2.1 (.str "oops") rfl).trans (by rfl),
   (odds_rendering.2.2.1 (.str "oops") rfl).trans (by rfl)⟩

theorem walletValueOf_obj (kvs : List (String × Json)) :
    walletValueOf (.obj kvs) = (lookupKV kvs "proxyWallet").getD .null := rfl

theorem validHolderEntry_props (h : Json) (hv : validHolderEntry h = true) :
    walletShapeOk h = true ∧ truthy (walletValueOf h) = true := by
  match h with
  | .obj kvs =>
    rw [validHolderEntry] at hv
    cases heq : lookupKV kvs "proxyWallet" with
    | none => rw [heq] at hv; simp at hv
    | some v =>
      rw [heq] at hv
      match v, hv with
      | .str s, hv =>
        have hsne : s ≠ "" := by simpa using hv
        refine ⟨?_, ?_⟩
        · rw [walletShapeOk, heq]; rfl
        · rw [walletValueOf_obj, heq]
          simpa [truthy] using hsne

theorem processHolders_spec (tcid : Json) (oi : ℤ) (api : ApiOracle) (maxH : ℕ)
    (hprofile : ∀ a : String,
      ∃ pr, get_profile_and_specific_position_data a tcid oi api = .ok pr) :
    ∀ (holders : List Json) (i count : ℕ),
    (∀ h ∈ holders, walletShapeOk h = true) →
    ∃ rs, processHolders tcid oi api maxH holders i count = .ok rs ∧
      rs.map (fun r => (r.rank, r.address)) =
        (((holders.enumFrom i).filter
            (fun p => truthy (walletValueOf p.2))).take (maxH - count)).map
          (fun p => (p.1 + 1, holderWallet p.2))
  | [], i, count, _ => ⟨[], rfl, by simp⟩
  | h :: rest, i, count, hshape => by
    have hh := hshape h (by simp)
    have hrest : ∀ x ∈ rest, walletShapeOk x = true := fun x hx => hshape x (by simp [hx])
    by_cases hge : count ≥ maxH
    · refine ⟨[], ?_, ?_⟩
      · simp only [processHolders]
        rw [if_pos hge]
      · rw [Nat.sub_eq_zero_of_le hge]
        simp
    · have hlt : count < maxH := Nat.lt_of_not_le hge
      match h, hh with
      | .obj kvs, hh =>
        rw [walletShapeOk] at hh
        cases htr : truthy ((lookupKV kvs "proxyWallet").getD .null) with
        | false =>
          obtain ⟨rs, hrs, hmap⟩ := processHolders_spec tcid oi api maxH hprofile
            rest (i + 1) count hrest
          refine ⟨rs, ?_, ?_⟩
          · simp only [processHolders]
            rw [if_neg hge, htr]
            simp only [Bool.false_eq_true, if_false]
            exact hrs
          · rw [hmap]
            have hfil : truthy (walletValueOf (Json.obj kvs)) = false := by
              rw [walletValueOf_obj]; exact htr
            simp [List.enumFrom, List.filter, hfil]
        | true =>
          cases hv : (lookupKV kvs "proxyWallet").getD .null with
          | null => rw [hv] at htr; simp [truthy] at htr
          | bool b => rw [hv] at htr hh; simp [htr] at hh
          | num n => rw [hv] at htr hh; simp [htr] at hh
          | arr xs => rw [hv] at htr hh; simp [htr] at hh
          | obj okvs => rw [hv] at htr hh; simp [htr] at hh
          | str s =>
            rw [hv] at htr
            obtain ⟨pr, hpr⟩ := hprofile s
            obtain ⟨rs, hrs, hmap⟩ := processHolders_spec tcid oi api maxH hprofile
              rest (i + 1) (count + 1) hrest
            refine ⟨⟨i + 1, (lookupKV kvs "name").getD
                (.str (String.mk (s.toList.take 10) ++ "...")), s,
                pr.overallVolume, pr.overallPnl, pr.totalPortfolioValue,
                pr.targetPosition⟩ :: rs, ?_, ?_⟩
            · simp only [processHolders]
              rw [if_neg hge, hv, if_pos htr]
              simp only [hpr, hrs, bind, Except.bind]
            · have hfil : truthy (walletValueOf (Json.obj kvs)) = true := by
                rw [walletValueOf_obj, hv]; exact htr
              have hww : holderWallet (Json.obj kvs) = s := by
                rw [holderWallet]
                cases heq : lookupKV kvs "proxyWallet" with
                | none => rw [heq] at hv; exact absurd hv (by simp)
                | some v =>
                  rw [heq] at hv
                  simp only [Option.getD_some] at hv
                  rw [hv]
              have htk : maxH - count = (maxH - (count + 1)) + 1 := by omega
              simp only [List.enumFrom, List.filter, hfil, List.map_cons, hmap, htk,
                List.take_succ_cons, hww]
  termination_by holders => holders.length

/-- C10: for every bucket whose entries are holder objects with falsy or
string wallets, and any oracle under which the per-holder profile calls
return, the side loop succeeds and the emitted records, viewed as (rank,
address) pairs, are exactly the first maxHoldersPerSide entries of the
enumerated bucket filtered to truthy wallets, each with rank one plus
its 0-based position in the bucket: entries lacking a wallet are skipped
without counting toward the cap, so up to maxHoldersPerSide records are
emitted and their ranks can be non-contiguous. -/
theorem holder_ranks_from_bucket (tcid : Json) (oi : ℤ) (api : ApiOracle) (maxH : ℕ)
    (holders : List Json)
    (hshape : ∀ h ∈ holders, walletShapeOk h = true)
    (hprofile : ∀ a : String,
      ∃ pr, get_profile_and_specific_position_data a tcid oi api = .ok pr) :
    ∃ rs, processHolders tcid oi api maxH holders 0 0 = .ok rs ∧
      rs.map (fun r => (r.rank, r.address)) =
        ((holders.enum.filter (fun p => truthy (walletValueOf p.2))).take maxH).map
          (fun p => (p.1 + 1, holderWallet p.2)) := by
  obtain ⟨rs, hrs, hmap⟩ := processHolders_spec tcid oi api maxH hprofile holders 0 0 hshape
  exact ⟨rs, hrs, by simpa [List.enum] using hmap⟩

/-- Witness for C10 at a concrete bucket of four entries whose first has
no wallet: the loop emits two records (cap 2) with ranks 2 and 3 taken
from the bucket positions, skipping the wallet-less leader without
counting it. -/
theorem holder_ranks_from_bucket_witness :
    processHolders (.str "c") 0 cApiDown 2
      [.obj [("name", .str "x")], .obj [("proxyWallet", .str "a")],
       .obj [("proxyWallet", .str "b")], .obj [("proxyWallet", .str "d")]] 0 0 =
      .ok [⟨2, .str "a...", "a", "Error", "Error", "Error", none⟩,
           ⟨3, .str "b...", "b", "Error", "Error", "Error", none⟩] ∧
    ([⟨2, .str "a...", "a", "Error", "Error", "Error", none⟩,
      ⟨3, .str "b...", "b", "Error", "Error", "Error", none⟩] : List HolderRecord).map
        (fun r => (r.rank, r.address)) = [(2, "a"), (3, "b")] := by
  obtain ⟨rs, hrs, hmap⟩ := holder_ranks_from_bucket (.str "c") 0 cApiDown 2
    [.obj [("name", .str "x")], .obj [("proxyWallet", .str "a")],
     .obj [("proxyWallet", .str "b")], .obj [("proxyWallet", .str "d")]]
    (by decide) (fun a => ⟨⟨"Error", "Error", "Error", none⟩, rfl⟩)
  have hL : processHolders (.str "c") 0 cApiDown 2
      [.obj [("name", .str "x")], .obj [("proxyWallet", .str "a")],
       .obj [("proxyWallet", .str "b")], .obj [("proxyWallet", .str "d")]] 0 0 =
      .ok [⟨2, .str "a...", "a", "Error", "Error", "Error", none⟩,
           ⟨3, .str "b...", "b", "Error", "Error", "Error", none⟩] := rfl
  have hre : rs = [⟨2, .str "a...", "a", "Error", "Error", "Error", none⟩,
      ⟨3, .str "b...", "b", "Error", "Error", "Error", none⟩] :=
    Except.ok.inj (hrs.symm.trans hL)
  refine ⟨hL, ?_⟩
  rw [← hre, hmap]
  rfl

theorem processSide_top3 (tcid : Json) (oi : ℤ) (api : ApiOracle) (raw : List Json)
    (h0 h1 h2 : Json) (rest : List Json)
    (hb : findOutcomeBucket oi raw = .ok (some (h0 :: h1 :: h2 :: rest)))
    (hv : ∀ h ∈ h0 :: h1 :: h2 :: rest, validHolderEntry h = true)
    (hprofile : ∀ a : String,
      ∃ pr, get_profile_and_specific_position_data a tcid oi api = .ok pr) :
    ∃ rs, processSide tcid oi api 3 raw = .ok rs ∧
      rs.map (fun r => (r.rank, r.address)) =
        [(1, holderWallet h0), (2, holderWallet h1), (3, holderWallet h2)] := by
  have hshape : ∀ h ∈ h0 :: h1 :: h2 :: rest, walletShapeOk h = true :=
    fun h hm => (validHolderEntry_props h (hv h hm)).1
  obtain ⟨rs, hrs, hmap⟩ := processHolders_spec tcid oi api 3 hprofile
    (h0 :: h1 :: h2 :: rest) 0 0 hshape
  refine ⟨rs, ?_, ?_⟩
  · simp only [processSide, hb, bind, Except.bind]
    exact hrs
  · rw [hmap]
    have t0 := (validHolderEntry_props h0 (hv h0 (by simp))).2
    have t1 := (validHolderEntry_props h1 (hv h1 (by simp))).2
    have t2 := (validHolderEntry_props h2 (hv h2 (by simp))).2
    simp [List.enumFrom, List.filter, t0, t1, t2]

/-- C7: when the holders response carries a Yes bucket and a No bucket of
ten valid holder entries each (objects with non-empty string wallets)
and the per-holder profile calls return, the assembly with
maxHoldersPerSide 3 emits exactly 3 composite records per side, carrying
ranks 1, 2, 3 and the first three bucket wallets in the buckets'
original order. -/
theorem top_holders_three_per_side (tcid : Json) (api : ApiOracle)
    (raw yesH noH : List Json)
    (hyb : findOutcomeBucket 0 raw = .ok (some yesH))
    (hnb : findOutcomeBucket 1 raw = .ok (some noH))
    (hylen : yesH.length = 10) (hnlen : noH.length = 10)
    (hyv : ∀ h ∈ yesH, validHolderEntry h = true)
    (hnv : ∀ h ∈ noH, validHolderEntry h = true)
    (hprofile : ∀ (a : String) (oi : ℤ),
      ∃ pr, get_profile_and_specific_position_data a tcid oi api = .ok pr) :
    ∃ ys ns, processSide tcid 0 api 3 raw = .ok ys ∧
      processSide tcid 1 api 3 raw = .ok ns ∧
      ys.length = 3 ∧ ns.length = 3 ∧
      ys.map (fun r => r.rank) = [1, 2, 3] ∧ ns.map (fun r => r.rank) = [1, 2, 3] ∧
      ys.map (fun r => r.address) = (yesH.take 3).map holderWallet ∧
      ns.map (fun r => r.address) = (noH.take 3).map holderWallet := by
  match yesH, hylen, hyv, hyb with
  | y0 :: y1 :: y2 :: yrest, _, hyv, hyb =>
    match noH, hnlen, hnv, hnb with
    | n0 :: n1 :: n2 :: nrest, _, hnv, hnb =>
      obtain ⟨ys, hys, hymap⟩ := processSide_top3 tcid 0 api raw y0 y1 y2 yrest hyb hyv
        (fun a => hprofile a 0)
      obtain ⟨ns, hns, hnmap⟩ := processSide_top3 tcid 1 api raw n0 n1 n2 nrest hnb hnv
        (fun a => hprofile a 1)
      refine ⟨ys, ns, hys, hns, ?_, ?_, ?_, ?_, ?_, ?_⟩
      · have := congrArg List.length hymap
        simpa using this
      · have := congrArg List.length hnmap
        simpa using this
      · have := congrArg (List.map Prod.fst) hymap
        simpa [List.map_map, Function.comp] using this
      · have := congrArg (List.map Prod.fst) hnmap
        simpa [List.map_map, Function.comp] using this
      · have := congrArg (List.map Prod.snd) hymap
        simpa [List.map_map, Function.comp, List.take] using this
      · have := congrArg (List.map Prod.snd) hnmap
        simpa [List.map_map, Function.comp, List.take] using this

/-- Witness for C7 at a concrete holders response with ten holders per
side: exactly three records per side, ranked 1, 2, 3 in bucket order. -/
theorem top_holders_three_per_side_witness :
    processSide (.str "c") 0 cApiDown 3
      [.obj [("holders", .arr (mkHolders 0 10))],
       .obj [("holders", .arr (mkHolders 1 10))]] =
      .ok [⟨1, .str "w0x0...", "w0x0", "Error", "Error", "Error", none⟩,
           ⟨2, .str "w0x1...", "w0x1", "Error", "Error", "Error", none⟩,
           ⟨3, .str "w0x2...", "w0x2", "Error", "Error", "Error", none⟩] ∧
    ([⟨1, .str "w0x0...", "w0x0", "Error", "Error", "Error", none⟩,
      ⟨2, .str "w0x1...", "w0x1", "Error", "Error", "Error", none⟩,
      ⟨3, .str "w0x2...", "w0x2", "Error", "Error", "Error", none⟩] :
        List HolderRecord).map (fun r => r.rank) = [1, 2, 3] := by
  obtain ⟨ys, ns, hys, hns, hyl, hnl, hyr, hnr, hya, hna⟩ :=
    top_holders_three_per_side (.str "c") cApiDown
      [.obj [("holders", .arr (mkHolders 0 10))],
       .obj [("holders", .arr (mkHolders 1 10))]]
      (mkHolders 0 10) (mkHolders 1 10) rfl rfl rfl rfl
      (by decide) (by decide)
      (fun a oi => ⟨⟨"Error", "Error", "Error", none⟩, rfl⟩)
  have hL : processSide (.str "c") 0 cApiDown 3
      [.obj [("holders", .arr (mkHolders 0 10))],
       .obj [("holders", .arr (mkHolders 1 10))]] =
      .ok [⟨1, .str "w0x0...", "w0x0", "Error", "Error", "Error", none⟩,
           ⟨2, .str "w0x1...", "w0x1", "Error", "Error", "Error", none⟩,
           ⟨3, .str "w0x2...", "w0x2", "Error", "Error", "Error", none⟩] := rfl
  have hre : ys = [⟨1, .str "w0x0...", "w0x0", "Error", "Error", "Error", none⟩,
      ⟨2, .str "w0x1...", "w0x1", "Error", "Error", "Error", none⟩,
      ⟨3, .str "w0x2...", "w0x2", "Error", "Error", "Error", none⟩] :=
    Except.ok.inj (hys.symm.trans hL)
  refine ⟨hL, ?_⟩
  rw [← hre]
  exact hyr

/-- C8: whenever the page state resolves to a markets list but the
requested market index is out of bounds (negative or at least the list
length), the run of process_market_holders_with_focused_stats terminates
with exactly the explicit bounds-error message and never yields an
output report (no .ok result exists, so no partial report is emitted). -/
theorem invalid_index_bounds_error (pageJson : Json) (ms : List Json) (idx : ℤ)
    (maxH : ℕ) (api : ApiOracle)
    (hms : getMarketDataFromState pageJson = some ms)
    (hidx : idx < 0 ∨ (ms.length : ℤ) ≤ idx) :
    process_market_holders_with_focused_stats pageJson idx maxH api =
      .error ("Invalid market index " ++ toString idx ++ ". Max index: " ++
        toString ((ms.length : ℤ) - 1)) ∧
    ∀ out, process_market_holders_with_focused_stats pageJson idx maxH api ≠ .ok out := by
  have hcond : ¬(0 ≤ idx ∧ idx < (ms.length : ℤ)) := by
    rcases hidx with h | h <;> omega
  have hmis : marketInfoStage idx ms =
      .error ("Invalid market index " ++ toString idx ++ ". Max index: " ++
        toString ((ms.length : ℤ) - 1)) := by
    rw [marketInfoStage, dif_neg hcond]
  have hmain : process_market_holders_with_focused_stats pageJson idx maxH api =
      .error ("Invalid market index " ++ toString idx ++ ". Max index: " ++
        toString ((ms.length : ℤ) - 1)) := by
    rw [process_market_holders_with_focused_stats, hms]
    simp only [hmis, bind, Except.bind]
  refine ⟨hmain, fun out hout => ?_⟩
  rw [hmain] at hout
  exact Except.noConfusion hout

/-- Witness for C8 at a concrete two-market page and index 5: the run
fails with the bounds message naming index 5 and max index 1. -/
theorem invalid_index_bounds_error_witness :
    process_market_holders_with_focused_stats (mkPageState (.obj [("markets",
      .arr [exMarket, .obj [("conditionId", .str "0xDEF"),
        ("groupItemTitle", .str "Second")]])])) 5 3 cApiDown =
      .error "Invalid market index 5. Max index: 1" :=
  (invalid_index_bounds_error (mkPageState (.obj [("markets",
      .arr [exMarket, .obj [("conditionId", .str "0xDEF"),
        ("groupItemTitle", .str "Second")]])]))
    [exMarket, .obj [("conditionId", .str "0xDEF"), ("groupItemTitle", .str "Second")]]
    5 3 cApiDown rfl (Or.inr (by decide))).1.trans (by rfl)
